import Mathlib

/-!
# Intent Governance Kernel — shallow embedding

A Lean 4 embedding of the hook pipeline of the Intent Governance Kernel
(`src/core/hooks/*`): the command classifier, the mutation classifier, the
scope matcher, the hook engine, and the optimistic-lock / authorization /
intent-update / trace-writer hooks.  File-system access, the modal-approval
dialog, UUIDs and timestamps are made explicit as parameters; JavaScript
`null`/`undefined` coalescing (`??`) is modelled with `Option`, and
JavaScript string truthiness (`!s` catches the empty string) with explicit
emptiness tests.  The SHA-256 digest primitive (`crypto.createHash`) is kept
abstract: every definition that hashes takes the hex-digest function
`sha256hex : String → String` as an explicit parameter, and the canonical
`sha256:`-prefixing of `SpatialHasher.hashContent` is modelled on top of it.
-/

namespace IGK

/-! ## A small regular-expression engine (Brzozowski derivatives)

`MutationClassifier.ts` and `ScopeEnforcementHook.ts` test JavaScript
regular expressions against strings.  The patterns involved use only
character classes, concatenation, alternation, option, and Kleene
star/plus, so we interpret them with a derivative-based matcher.
-/

inductive Rx where
  | emp : Rx
  | eps : Rx
  | cls (p : Char → Bool) : Rx
  | cat (a b : Rx) : Rx
  | alt (a b : Rx) : Rx
  | star (a : Rx) : Rx

def Rx.nullable : Rx → Bool
  | .emp => false
  | .eps => true
  | .cls _ => false
  | .cat a b => a.nullable && b.nullable
  | .alt a b => a.nullable || b.nullable
  | .star _ => true

def Rx.deriv : Rx → Char → Rx
  | .emp, _ => .emp
  | .eps, _ => .emp
  | .cls p, c => if p c then .eps else .emp
  | .cat a b, c =>
      if a.nullable then .alt (.cat (a.deriv c) b) (b.deriv c)
      else .cat (a.deriv c) b
  | .alt a b, c => .alt (a.deriv c) (b.deriv c)
  | .star a, c => .cat (a.deriv c) (.star a)

/-- Does `r` accept the whole character list? -/
def Rx.acceptList (r : Rx) : List Char → Bool
  | [] => r.nullable
  | c :: cs => (r.deriv c).acceptList cs

/-- Does `r` accept some prefix of the character list?  (Models an
unanchored-at-the-right JavaScript regex test that is anchored on the
left with `^`.) -/
def Rx.acceptInitList (r : Rx) : List Char → Bool
  | [] => r.nullable
  | c :: cs => r.nullable || (r.deriv c).acceptInitList cs

/-- Full match of a string. -/
def Rx.accept (r : Rx) (s : String) : Bool :=
  r.acceptList s.data

/-- Prefix match of a string. -/
def Rx.acceptInit (r : Rx) (s : String) : Bool :=
  r.acceptInitList s.data

def rxChar (c : Char) : Rx := .cls (· = c)

/-- Literal string as a regex (concatenation of its characters). -/
def rxStr (s : String) : Rx :=
  s.data.foldr (fun c r => .cat (rxChar c) r) .eps

def rxAlts : List Rx → Rx
  | [] => .emp
  | [r] => r
  | r :: rs => .alt r (rxAlts rs)

def rxSeq : List Rx → Rx
  | [] => .eps
  | [r] => r
  | r :: rs => .cat r (rxSeq rs)

def rxOpt (r : Rx) : Rx := .alt .eps r

def rxPlus (r : Rx) : Rx := .cat r (.star r)

/-- JavaScript `\s` (ASCII part; Unicode spaces do not occur in the
classified contents). -/
def jsSpace (c : Char) : Bool :=
  c = ' ' || c = '\t' || c = '\n' || c = '\r' ||
  c = '\x0b' || c = '\x0c'

/-- JavaScript `\w`. -/
def jsWord (c : Char) : Bool :=
  (('a' ≤ c && c ≤ 'z') || ('A' ≤ c && c ≤ 'Z') ||
   ('0' ≤ c && c ≤ '9') || c = '_')

/-- JavaScript `.` (anything but a line terminator). -/
def jsDot (c : Char) : Bool :=
  !(c = '\n' || c = '\r')

def rxSpaceStar : Rx := .star (.cls jsSpace)

def rxSpacePlus : Rx := rxPlus (.cls jsSpace)

def rxWordPlus : Rx := rxPlus (.cls jsWord)

/-- Split a character list at `'\n'` (as JavaScript `s.split("\n")`). -/
def splitNl : List Char → List (List Char)
  | [] => [[]]
  | c :: cs =>
    if c = '\n' then [] :: splitNl cs
    else
      match splitNl cs with
      | l :: ls => (c :: l) :: ls
      | [] => [[c]]

/-- The lines of a string, split at `'\n'` (as JavaScript
`content.split("\n")`; `^`/`$` with the `m` flag match at these
boundaries).  Two simplifications: `\r` line terminators are not
modelled, and a match is evaluated within one line — in JavaScript a
`^`-anchored match could run past the line end where `\s`/`[^)]`
consume the `\n` itself; neither case occurs in the contents
considered. -/
def jsLines (s : String) : List String :=
  (splitNl s.data).map String.mk

/-- Test of a `^`-anchored multiline pattern: some line has a prefix
matched by `r`. -/
def testLineStart (r : Rx) (content : String) : Bool :=
  (jsLines content).any (fun l => r.acceptInit l)

/-- Test of a `^...$` multiline pattern: some line is fully matched. -/
def testLineFull (r : Rx) (content : String) : Bool :=
  (jsLines content).any (fun l => r.accept l)

/-! ## MutationClassifier (`src/core/hooks/MutationClassifier.ts`) -/

inductive MutationClass where
  | AST_REFACTOR : MutationClass
  | INTENT_EVOLUTION : MutationClass
deriving DecidableEq, Repr

/-- `/^[-+]\s*(const|let|var|function|class|interface|type|export)\s+\w+\s*=/m` -/
def refactorRenamePattern : Rx :=
  rxSeq [.cls (fun c => c = '-' || c = '+'), rxSpaceStar,
    rxAlts [rxStr "const", rxStr "let", rxStr "var", rxStr "function",
      rxStr "class", rxStr "interface", rxStr "type", rxStr "export"],
    rxSpacePlus, rxWordPlus, rxSpaceStar, rxChar '=']

/-- `/^\s*$/m` -/
def refactorBlankPattern : Rx := rxSpaceStar

/-- `/^[-+]\s*import\s+/m` -/
def refactorImportPattern : Rx :=
  rxSeq [.cls (fun c => c = '-' || c = '+'), rxSpaceStar,
    rxStr "import", rxSpacePlus]

/-- `/^[-+]\s*(\/\/|\/\*|\*)/m` -/
def refactorCommentPattern : Rx :=
  rxSeq [.cls (fun c => c = '-' || c = '+'), rxSpaceStar,
    rxAlts [rxStr "//", rxStr "/*", rxStr "*"]]

/-- The four `REFACTOR_PATTERNS` tests, in source order.  All are
`^`-anchored; the second (`/^\s*$/m`) is also `$`-anchored and therefore
requires a whole (whitespace-only) line. -/
def REFACTOR_PATTERNS : List (String → Bool) :=
  [testLineStart refactorRenamePattern,
   testLineFull refactorBlankPattern,
   testLineStart refactorImportPattern,
   testLineStart refactorCommentPattern]

/-- `/^\+\s*(async\s+)?function\s+\w+\s*\(/m` -/
def evolutionFunctionPattern : Rx :=
  rxSeq [rxChar '+', rxSpaceStar,
    rxOpt (.cat (rxStr "async") rxSpacePlus),
    rxStr "function", rxSpacePlus, rxWordPlus, rxSpaceStar, rxChar '(']

/-- `/^\+\s*(public|private|protected|static)?\s*(async\s+)?\w+\s*\([^)]*\)\s*[:{]/m` -/
def evolutionMethodPattern : Rx :=
  rxSeq [rxChar '+', rxSpaceStar,
    rxOpt (rxAlts [rxStr "public", rxStr "private", rxStr "protected", rxStr "static"]),
    rxSpaceStar, rxOpt (.cat (rxStr "async") rxSpacePlus),
    rxWordPlus, rxSpaceStar, rxChar '(',
    .star (.cls (· ≠ ')')), rxChar ')', rxSpaceStar,
    .cls (fun c => c = ':' || c = '{')]

/-- `/^\+\s*(export\s+)?(class|interface)\s+\w+/m` -/
def evolutionClassPattern : Rx :=
  rxSeq [rxChar '+', rxSpaceStar,
    rxOpt (.cat (rxStr "export") rxSpacePlus),
    rxAlts [rxStr "class", rxStr "interface"],
    rxSpacePlus, rxWordPlus]

/-- `/^\+\s*export\s+(const|let|function|class|default)/m` -/
def evolutionExportPattern : Rx :=
  rxSeq [rxChar '+', rxSpaceStar, rxStr "export", rxSpacePlus,
    rxAlts [rxStr "const", rxStr "let", rxStr "function", rxStr "class", rxStr "default"]]

/-- `/^\+\s*(app|router)\.(get|post|put|delete|patch|use)\s*\(/m` -/
def evolutionRoutePattern : Rx :=
  rxSeq [rxChar '+', rxSpaceStar,
    rxAlts [rxStr "app", rxStr "router"], rxChar '.',
    rxAlts [rxStr "get", rxStr "post", rxStr "put", rxStr "delete", rxStr "patch", rxStr "use"],
    rxSpaceStar, rxChar '(']

/-- `/^\+\s*if\s*\(.+\)\s*\{/m` -/
def evolutionConditionalPattern : Rx :=
  rxSeq [rxChar '+', rxSpaceStar, rxStr "if", rxSpaceStar, rxChar '(',
    rxPlus (.cls jsDot), rxChar ')', rxSpaceStar, rxChar '{']

/-- The six `EVOLUTION_PATTERNS` tests, in source order. -/
def EVOLUTION_PATTERNS : List (String → Bool) :=
  [testLineStart evolutionFunctionPattern,
   testLineStart evolutionMethodPattern,
   testLineStart evolutionClassPattern,
   testLineStart evolutionExportPattern,
   testLineStart evolutionRoutePattern,
   testLineStart evolutionConditionalPattern]

/-- Input of `classifyMutation`.  `explicitClass` is the raw string taken
from the tool call (`mutation_class`); the source compares it against the
two literal class names, so any other string behaves like `null`. -/
structure MutationClassificationInput where
  explicitClass : Option String := none
  content : String
  isNewFile : Bool := false

/-- `classifyMutation` (`MutationClassifier.ts`): explicit override, then
the new-file rule, then evolution signals, then two-or-more refactor
signals, then the conservative default. -/
def classifyMutation (input : MutationClassificationInput) : MutationClass :=
  if input.explicitClass = some "AST_REFACTOR" then .AST_REFACTOR
  else if input.explicitClass = some "INTENT_EVOLUTION" then .INTENT_EVOLUTION
  else if input.isNewFile then .INTENT_EVOLUTION
  else if EVOLUTION_PATTERNS.any (fun p => p input.content) then .INTENT_EVOLUTION
  else if (REFACTOR_PATTERNS.filter (fun p => p input.content)).length ≥ 2 then .AST_REFACTOR
  else .INTENT_EVOLUTION

/-! ## List-based string helpers

JavaScript string primitives (`trim`, `startsWith`, `replace`) modelled
as structural recursions over the character list, so that concrete
evaluations reduce in the kernel.
-/

/-- JavaScript `String.prototype.trim` (whitespace at both ends). -/
def jsTrim (s : String) : String :=
  String.mk (((s.data.dropWhile jsSpace).reverse.dropWhile jsSpace).reverse)

/-- `a.startsWith b` on character lists. -/
def startsWithL (s pre : List Char) : Bool :=
  pre.isPrefixOf s

/-- Does the string end with `'/'`?  (JavaScript `endsWith("/")`.) -/
def endsWithSlash (s : String) : Bool :=
  s.data.getLast? = some '/'

/-- `s.replace(/\\/g, "/")`. -/
def replaceBackslashes (s : String) : String :=
  String.mk (s.data.map (fun c => if c = '\\' then '/' else c))

/-- JavaScript truthiness of a possibly-absent string: `undefined`,
`null` and `""` are falsy. -/
def strTruthy : Option String → Bool
  | none => false
  | some s => !(s = "")

/-- JavaScript `a ?? b` on possibly-absent strings (only
`null`/`undefined` fall through; the empty string does not). -/
def optChain (a b : Option String) : Option String :=
  match a with
  | some x => some x
  | none => b

/-- JavaScript `a || b` on possibly-absent strings (a falsy left operand
falls through). -/
def jsOrStr (a b : Option String) : Option String :=
  if strTruthy a then a else b

/-! ## CommandClassifier (`src/core/hooks/CommandClassifier.ts`) -/

def SAFE_TOOLS : List String :=
  ["read_file", "list_files", "search_files", "codebase_search",
   "ask_followup_question", "attempt_completion", "read_command_output",
   "select_active_intent", "update_todo_list"]

def DESTRUCTIVE_TOOLS : List String :=
  ["write_to_file", "apply_diff", "edit", "search_and_replace",
   "search_replace", "edit_file", "apply_patch", "execute_command",
   "use_mcp_tool", "access_mcp_resource", "switch_mode", "new_task",
   "generate_image", "run_slash_command", "skill"]

inductive CommandClass where
  | SAFE : CommandClass
  | DESTRUCTIVE : CommandClass
  | UNKNOWN : CommandClass
deriving DecidableEq, Repr

def classifyCommand (toolName : String) : CommandClass :=
  if SAFE_TOOLS.contains toolName then .SAFE
  else if DESTRUCTIVE_TOOLS.contains toolName then .DESTRUCTIVE
  else .UNKNOWN

/-! ## JSON values and `JSON.stringify(obj, null, 2)`

`buildRejectionError` serializes a flat object whose values are strings
or `null`.  We model exactly that shape: a field list of
string-or-null values, rendered the way `JSON.stringify` with 2-space
indentation renders it.
-/

inductive JsonValue where
  | null : JsonValue
  | str (s : String) : JsonValue
deriving DecidableEq, Repr

/-- Lowercase hex digit (for `\u00xx` escapes). -/
def hexDigitChar (n : Nat) : Char :=
  if n < 10 then Char.ofNat ('0'.toNat + n) else Char.ofNat ('a'.toNat + (n - 10))

/-- `JSON.stringify` escaping of one character. -/
def escJsonChar (c : Char) : List Char :=
  if c = '"' then ['\\', '"']
  else if c = '\\' then ['\\', '\\']
  else if c = '\n' then ['\\', 'n']
  else if c = '\r' then ['\\', 'r']
  else if c = '\t' then ['\\', 't']
  else if c = '\x08' then ['\\', 'b']
  else if c = '\x0c' then ['\\', 'f']
  else if c.toNat < 32 then
    ['\\', 'u', '0', '0', hexDigitChar (c.toNat / 16), hexDigitChar (c.toNat % 16)]
  else [c]

def escChars (s : String) : List Char :=
  (s.data.map escJsonChar).flatten

def quoteChars (s : String) : List Char :=
  '"' :: (escChars s ++ ['"'])

def valueChars : JsonValue → List Char
  | .null => ['n', 'u', 'l', 'l']
  | .str s => quoteChars s

/-- One `"key": value` line at indentation 2. -/
def fieldChars (kv : String × JsonValue) : List Char :=
  ' ' :: ' ' :: (quoteChars kv.1 ++ ':' :: ' ' :: valueChars kv.2)

def fieldsChars : List (String × JsonValue) → List Char
  | [] => []
  | [kv] => fieldChars kv
  | kv :: rest => fieldChars kv ++ ',' :: '\n' :: fieldsChars rest

/-- `JSON.stringify(obj, null, 2)` for a flat object of string-or-null
values. -/
def renderJsonObj2 (fields : List (String × JsonValue)) : String :=
  match fields with
  | [] => "\x7b\x7d"
  | _ => String.mk ('{' :: '\n' :: (fieldsChars fields ++ ['\n', '}']))

/-- Field lookup in a rendered-object field list. -/
def lookupJson : List (String × JsonValue) → String → Option JsonValue
  | [], _ => none
  | (k, v) :: rest, key => if k = key then some v else lookupJson rest key

/-! ## `buildRejectionError` (`CommandClassifier.ts`) -/

structure RejectionParams where
  code : String
  message : String
  toolName : String
  intentId : Option String := none
  recoveryHint : Option String := none
deriving DecidableEq, Repr

/-- The default `recovery_hint` used when the caller omits one. -/
def defaultRecoveryHint : String :=
  "Please try a different approach that does not require this action, ask the user for guidance, or request scope expansion via select_active_intent."

/-- The field list of the serialized rejection payload, in source order. -/
def rejectionFields (p : RejectionParams) : List (String × JsonValue) :=
  [("error", .str "TOOL_REJECTED"),
   ("code", .str p.code),
   ("tool", .str p.toolName),
   ("intent_id", match p.intentId with | some i => .str i | none => .null),
   ("message", .str p.message),
   ("recovery_hint", .str (p.recoveryHint.getD defaultRecoveryHint))]

/-- `buildRejectionError`: the pretty-printed (2-space indented) JSON
rejection payload. -/
def buildRejectionError (p : RejectionParams) : String :=
  renderJsonObj2 (rejectionFields p)

/-! ## A JSON parser for the rendered payload

To say that `buildRejectionError` "parses as JSON" we implement an
actual parser for the pretty-printed flat-object fragment and prove it
inverts the renderer for every input.  The parsers carry a fuel counter
(any fuel larger than the input length is sufficient), keeping the
recursions structural.
-/

def hexVal (c : Char) : Option Nat :=
  if '0' ≤ c ∧ c ≤ '9' then some (c.toNat - '0'.toNat)
  else if 'a' ≤ c ∧ c ≤ 'f' then some (c.toNat - 'a'.toNat + 10)
  else if 'A' ≤ c ∧ c ≤ 'F' then some (c.toNat - 'A'.toNat + 10)
  else none

/-- Value of four hex digits. -/
def hex4 (h1 h2 h3 h4 : Char) : Option Nat :=
  (hexVal h1).bind fun a => (hexVal h2).bind fun b =>
    (hexVal h3).bind fun c => (hexVal h4).map fun d =>
      ((a * 16 + b) * 16 + c) * 16 + d

/-- Inverse of the two-character JSON escapes. -/
def unescapeChar (e : Char) : Option Char :=
  if e = '"' then some '"'
  else if e = '\\' then some '\\'
  else if e = '/' then some '/'
  else if e = 'n' then some '\n'
  else if e = 'r' then some '\r'
  else if e = 't' then some '\t'
  else if e = 'b' then some '\x08'
  else if e = 'f' then some '\x0c'
  else none

/-- Parse a JSON string body (after the opening quote) up to and
including the closing quote; returns the decoded characters and the
remaining input. -/
def parseJString : Nat → List Char → Option (List Char × List Char)
  | 0, _ => none
  | _ + 1, [] => none
  | fuel + 1, c :: rest =>
    if c = '"' then some ([], rest)
    else if c = '\\' then
      match rest with
      | [] => none
      | e :: rest2 =>
        if e = 'u' then
          match rest2 with
          | h1 :: h2 :: h3 :: h4 :: rest3 =>
            (hex4 h1 h2 h3 h4).bind fun n =>
              (parseJString fuel rest3).map (fun p => (Char.ofNat n :: p.1, p.2))
          | _ => none
        else
          match unescapeChar e with
          | some u => (parseJString fuel rest2).map (fun p => (u :: p.1, p.2))
          | none => none
    else (parseJString fuel rest).map (fun p => (c :: p.1, p.2))

/-- Parse a primitive JSON value (`null` or a string). -/
def parseJValue (fuel : Nat) : List Char → Option (JsonValue × List Char)
  | 'n' :: 'u' :: 'l' :: 'l' :: rest => some (.null, rest)
  | '"' :: rest =>
    (parseJString fuel rest).map (fun p => (JsonValue.str (String.mk p.1), p.2))
  | _ => none

/-- Parse the 2-space-indented field lines of a flat object, up to and
including the closing `}`. -/
def parseJFields : Nat → List Char → Option (List (String × JsonValue) × List Char)
  | 0, _ => none
  | fuel + 1, l =>
    match l with
    | ' ' :: ' ' :: '"' :: rest =>
      match parseJString (fuel + 1) rest with
      | some (k, ':' :: ' ' :: r2) =>
        match parseJValue (fuel + 1) r2 with
        | some (v, ',' :: '\n' :: r4) =>
          (parseJFields fuel r4).map (fun p => ((String.mk k, v) :: p.1, p.2))
        | some (v, '\n' :: '}' :: r4) => some ([(String.mk k, v)], r4)
        | _ => none
      | _ => none
    | _ => none

/-- Parse a whole pretty-printed flat JSON object. -/
def parseFlatJsonObj (s : String) : Option (List (String × JsonValue)) :=
  match s.data with
  | ['{', '}'] => some []
  | '{' :: '\n' :: rest =>
    match parseJFields s.data.length rest with
    | some (fs, []) => some fs
    | _ => none
  | _ => none

theorem hexVal_hexDigitChar (n : Nat) (h : n < 16) :
    hexVal (hexDigitChar n) = some n := by
  interval_cases n <;> decide

theorem hex4_zeros (n : Nat) (h : n < 32) :
    hex4 '0' '0' (hexDigitChar (n / 16)) (hexDigitChar (n % 16)) = some n := by
  have hdiv : n / 16 < 16 := by omega
  have hmod : n % 16 < 16 := by omega
  simp [hex4, hexVal_hexDigitChar _ hdiv, hexVal_hexDigitChar _ hmod,
    show hexVal '0' = some 0 by decide]
  omega

theorem escJsonChar_length_pos (c : Char) : 1 ≤ (escJsonChar c).length := by
  unfold escJsonChar
  split_ifs <;> simp

theorem escFlat_length (l : List Char) :
    l.length ≤ ((l.map escJsonChar).flatten).length := by
  induction l with
  | nil => simp
  | cons c l ih =>
    simp only [List.map_cons, List.flatten_cons, List.length_append, List.length_cons]
    have := escJsonChar_length_pos c
    omega

theorem parseJString_escChars (l X : List Char) (fuel : Nat) (hf : l.length < fuel) :
    parseJString fuel ((l.map escJsonChar).flatten ++ '"' :: X) = some (l, X) := by
  induction l generalizing X fuel with
  | nil =>
    match fuel, hf with
    | f + 1, _ => simp +decide [parseJString]
  | cons c l ih =>
    match fuel, hf with
    | f + 1, hf =>
      have hfl : l.length < f := by
        simp only [List.length_cons] at hf; omega
      simp only [List.map_cons, List.flatten_cons, List.append_assoc]
      by_cases h1 : c = '"'
      · subst h1; simp +decide [parseJString, unescapeChar, escJsonChar, ih _ _ hfl]
      · by_cases h2 : c = '\\'
        · subst h2; simp +decide [parseJString, unescapeChar, escJsonChar, ih _ _ hfl]
        · by_cases h3 : c = '\n'
          · subst h3; simp +decide [parseJString, unescapeChar, escJsonChar, ih _ _ hfl]
          · by_cases h4 : c = '\r'
            · subst h4; simp +decide [parseJString, unescapeChar, escJsonChar, ih _ _ hfl]
            · by_cases h5 : c = '\t'
              · subst h5; simp +decide [parseJString, unescapeChar, escJsonChar, ih _ _ hfl]
              · by_cases h6 : c = '\x08'
                · subst h6; simp +decide [parseJString, unescapeChar, escJsonChar, ih _ _ hfl]
                · by_cases h7 : c = '\x0c'
                  · subst h7; simp +decide [parseJString, unescapeChar, escJsonChar, ih _ _ hfl]
                  · by_cases h8 : c.toNat < 32
                    · simp only [escJsonChar, if_neg h1, if_neg h2, if_neg h3, if_neg h4,
                        if_neg h5, if_neg h6, if_neg h7, if_pos h8, List.cons_append,
                        List.nil_append]
                      simp +decide [parseJString, hex4_zeros _ h8, ih _ _ hfl,
                        Char.ofNat_toNat]
                    · simp only [escJsonChar, if_neg h1, if_neg h2, if_neg h3, if_neg h4,
                        if_neg h5, if_neg h6, if_neg h7, if_neg h8, List.cons_append,
                        List.nil_append]
                      simp [parseJString, if_neg h1, if_neg h2, ih _ _ hfl]

/-- Fuel needed by `parseJValue` beyond the value's own characters. -/
def jvFuel : JsonValue → Nat
  | .null => 0
  | .str s => s.data.length

theorem parseJValue_valueChars (v : JsonValue) (X : List Char) (fuel : Nat)
    (hf : jvFuel v < fuel) :
    parseJValue fuel (valueChars v ++ X) = some (v, X) := by
  cases v with
  | null => simp +decide [valueChars, parseJValue]
  | str s =>
    simp only [jvFuel] at hf
    simp [valueChars, quoteChars, escChars, parseJValue, List.append_assoc,
      parseJString_escChars _ _ _ hf]

theorem stringMk_data (s : String) : String.mk s.data = s := rfl

theorem fieldChars_length (k : String) (v : JsonValue) :
    (fieldChars (k, v)).length = (escChars k).length + 6 + (valueChars v).length := by
  simp [fieldChars, quoteChars, List.length_append]
  omega

theorem jvFuel_le_valueChars (v : JsonValue) : jvFuel v ≤ (valueChars v).length := by
  cases v with
  | null => simp [jvFuel, valueChars]
  | str s =>
    have := escFlat_length s.data
    simp only [jvFuel, valueChars, quoteChars, escChars, List.length_cons,
      List.length_append]
    omega

theorem parseJFields_fieldsChars (fs : List (String × JsonValue)) (X : List Char)
    (fuel : Nat) (hne : fs ≠ []) (hf : (fieldsChars fs).length < fuel) :
    parseJFields fuel (fieldsChars fs ++ '\n' :: '}' :: X) = some (fs, X) := by
  induction fs generalizing X fuel with
  | nil => simp at hne
  | cons kv fs ih =>
    obtain ⟨k, v⟩ := kv
    match fuel, hf with
    | f + 1, hf =>
      cases fs with
      | nil =>
        have hflen : (fieldChars (k, v)).length < f + 1 := by
          simpa [fieldsChars] using hf
        have h1 : k.data.length ≤ (escChars k).length := escFlat_length k.data
        have h2 := fieldChars_length k v
        have h3 := jvFuel_le_valueChars v
        have hk : k.data.length < f + 1 := by omega
        have hv : jvFuel v < f + 1 := by omega
        have e1 : parseJString (f + 1)
            (escChars k ++ '"' :: ':' :: ' ' :: (valueChars v ++ '\n' :: '}' :: X))
            = some (k.data, ':' :: ' ' :: (valueChars v ++ '\n' :: '}' :: X)) :=
          parseJString_escChars k.data
            (':' :: ' ' :: (valueChars v ++ '\n' :: '}' :: X)) (f + 1) hk
        have e2 := parseJValue_valueChars v ('\n' :: '}' :: X) (f + 1) hv
        simp only [fieldsChars, fieldChars, quoteChars, List.append_assoc,
          List.cons_append, List.nil_append]
        simp +decide [parseJFields, e1, e2, stringMk_data]
      | cons kv2 fs2 =>
        have hsplit : (fieldsChars ((k, v) :: kv2 :: fs2)).length
            = (fieldChars (k, v)).length + 2 + (fieldsChars (kv2 :: fs2)).length := by
          simp [fieldsChars, List.length_append]
          omega
        have h1 : k.data.length ≤ (escChars k).length := escFlat_length k.data
        have h2 := fieldChars_length k v
        have h3 := jvFuel_le_valueChars v
        have hk : k.data.length < f + 1 := by omega
        have hv : jvFuel v < f + 1 := by omega
        have htail : (fieldsChars (kv2 :: fs2)).length < f := by omega
        have e1 : parseJString (f + 1)
            (escChars k ++ '"' :: ':' :: ' ' :: (valueChars v ++ ',' :: '\n' ::
              (fieldsChars (kv2 :: fs2) ++ '\n' :: '}' :: X)))
            = some (k.data, ':' :: ' ' :: (valueChars v ++ ',' :: '\n' ::
              (fieldsChars (kv2 :: fs2) ++ '\n' :: '}' :: X))) :=
          parseJString_escChars k.data
            (':' :: ' ' :: (valueChars v ++ ',' :: '\n' ::
              (fieldsChars (kv2 :: fs2) ++ '\n' :: '}' :: X))) (f + 1) hk
        have e2 := parseJValue_valueChars v
          (',' :: '\n' :: (fieldsChars (kv2 :: fs2) ++ '\n' :: '}' :: X)) (f + 1) hv
        have e3 := ih X f (by simp) htail
        simp only [fieldsChars, fieldChars, quoteChars, List.append_assoc,
          List.cons_append, List.nil_append]
        simp +decide [parseJFields, e1, e2, e3, stringMk_data]

theorem parseFlatJsonObj_render (fs : List (String × JsonValue)) :
    parseFlatJsonObj (renderJsonObj2 fs) = some fs := by
  cases fs with
  | nil => rfl
  | cons kv fs =>
    have e := parseJFields_fieldsChars (kv :: fs) []
      ((fieldsChars (kv :: fs)).length + 2 + 1 + 1)
      (by simp)
      (by omega)
    simp only [show ('\n' :: '}' :: ([] : List Char)) = ['\n', '}'] from rfl] at e
    simp only [renderJsonObj2, parseFlatJsonObj, stringMk_data]
    simp [e]

/-- C8: for every input, `buildRejectionError` returns a string that
parses as JSON with `error = "TOOL_REJECTED"`, the given code, tool name
and message, `intent_id` equal to the supplied id or null when absent,
and `recovery_hint` equal verbatim to the supplied hint when one is
provided, else the fixed default hint. -/
theorem buildRejectionError_spec (p : RejectionParams) :
    parseFlatJsonObj (buildRejectionError p) = some (rejectionFields p) ∧
    lookupJson (rejectionFields p) "error" = some (.str "TOOL_REJECTED") ∧
    lookupJson (rejectionFields p) "code" = some (.str p.code) ∧
    lookupJson (rejectionFields p) "tool" = some (.str p.toolName) ∧
    lookupJson (rejectionFields p) "intent_id" =
      some (match p.intentId with | some i => .str i | none => .null) ∧
    lookupJson (rejectionFields p) "message" = some (.str p.message) ∧
    lookupJson (rejectionFields p) "recovery_hint" =
      some (.str (p.recoveryHint.getD defaultRecoveryHint)) := by
  refine ⟨parseFlatJsonObj_render _, ?_, ?_, ?_, ?_, ?_, ?_⟩ <;>
    simp +decide [rejectionFields, lookupJson]

/-! ## Hook engine (`HookEngine.ts`)

A hook's pre-phase is a function from the (possibly transformed) tool
block to a `HookResult`.  `runPreHooksTr` is `runPreHooks` instrumented
with the list of blocks actually passed to the successive hooks it
invoked, so that short-circuiting and block substitution are visible in
the result.
-/

structure HookResult (β : Type) where
  blocked : Bool := false
  errorMessage : Option String := none
  transformedBlock : Option β := none
deriving DecidableEq, Repr

/-- `runPreHooks`, instrumented with the blocks handed to each invoked
hook (in invocation order). -/
def runPreHooksTr {β : Type} : List (β → HookResult β) → β → HookResult β × List β
  | [], b => ({ blocked := false, transformedBlock := some b }, [])
  | h :: t, b =>
    let r := h b
    if r.blocked then (r, [b])
    else
      let p := runPreHooksTr t (r.transformedBlock.getD b)
      (p.1, b :: p.2)

/-- `HookEngine.runPreHooks`: iterate the pre-hooks in order, stop at
the first blocked result, thread `transformedBlock` through. -/
def runPreHooks {β : Type} (hooks : List (β → HookResult β)) (b : β) : HookResult β :=
  (runPreHooksTr hooks b).1

/-- Modelled from the spec: the driver dataflow of §2 (pre-phase → tool)
is outside the hooks directory; the tool body runs only when no pre-hook
blocked, on the transformed block. -/
def runInvocation {β τ : Type} (hooks : List (β → HookResult β)) (tool : β → τ)
    (b : β) : Option τ :=
  let r := runPreHooks hooks b
  if r.blocked then none else some (tool (r.transformedBlock.getD b))

/-- The block that hook `k` receives: the initial block threaded through
the transformations of hooks `0..k-1`. -/
def preBlockSeen {β : Type} (hooks : List (β → HookResult β)) (b : β) (k : Nat) : β :=
  (hooks.take k).foldl (fun acc h => ((h acc).transformedBlock).getD acc) b

theorem preBlockSeen_zero {β : Type} (hooks : List (β → HookResult β)) (b : β) :
    preBlockSeen hooks b 0 = b := rfl

theorem preBlockSeen_succ_cons {β : Type} (h : β → HookResult β)
    (t : List (β → HookResult β)) (b : β) (i : Nat) :
    preBlockSeen (h :: t) b (i + 1) = preBlockSeen t (((h b).transformedBlock).getD b) i := by
  simp [preBlockSeen, List.take_succ_cons]

/-- C4: if the k-th pre-hook (on the block it is handed) blocks while
hooks 0..k-1 do not, then `runPreHooks` returns that hook's result, the
hooks invoked are exactly 0..k (each receiving the block as transformed
by its predecessors), and the tool is not executed. -/
theorem runPreHooks_block_short_circuits {β τ : Type}
    (hooks : List (β → HookResult β)) (tool : β → τ) (b : β) (k : Nat)
    (hk : k < hooks.length)
    (hprev : ∀ i, (hi : i < k) →
      ((hooks.get ⟨i, Nat.lt_trans hi hk⟩) (preBlockSeen hooks b i)).blocked = false)
    (hblk : ((hooks.get ⟨k, hk⟩) (preBlockSeen hooks b k)).blocked = true) :
    runPreHooksTr hooks b =
      ((hooks.get ⟨k, hk⟩) (preBlockSeen hooks b k),
        (List.range (k + 1)).map (preBlockSeen hooks b)) ∧
    runInvocation hooks tool b = none := by
  induction k generalizing hooks b with
  | zero =>
    match hooks, hk with
    | h :: t, _ =>
      have hb : (h b).blocked = true := hblk
      constructor
      · simp [runPreHooksTr, hb, preBlockSeen, List.range_succ]
      · simp [runInvocation, runPreHooks, runPreHooksTr, hb]
  | succ k ih =>
    match hooks, hk with
    | h :: t, hk =>
      have h0 : (h b).blocked = false := by
        have := hprev 0 (Nat.succ_pos k)
        simpa [preBlockSeen] using this
      have hk' : k < t.length := Nat.lt_of_succ_lt_succ hk
      have hprev' : ∀ i, (hi : i < k) →
          ((t.get ⟨i, Nat.lt_trans hi hk'⟩)
            (preBlockSeen t (((h b).transformedBlock).getD b) i)).blocked = false := by
        intro i hi
        have := hprev (i + 1) (Nat.succ_lt_succ hi)
        simpa [preBlockSeen_succ_cons] using this
      have hblk' : ((t.get ⟨k, hk'⟩)
          (preBlockSeen t (((h b).transformedBlock).getD b) k)).blocked = true := by
        simpa [preBlockSeen_succ_cons] using hblk
      obtain ⟨e1, _⟩ := ih t (((h b).transformedBlock).getD b) hk' hprev' hblk'
      have etr : runPreHooksTr (h :: t) b =
          ((t.get ⟨k, hk'⟩) (preBlockSeen t (((h b).transformedBlock).getD b) k),
            b :: (List.range (k + 1)).map (preBlockSeen t (((h b).transformedBlock).getD b))) := by
        simp [runPreHooksTr, h0, e1]
      have hmap : List.map (preBlockSeen (h :: t) b) (List.range (k + 1 + 1))
          = b :: List.map (preBlockSeen t (((h b).transformedBlock).getD b))
              (List.range (k + 1)) := by
        rw [List.range_succ_eq_map, List.map_cons, List.map_map]
        have ht : List.map (preBlockSeen (h :: t) b ∘ Nat.succ) (List.range (k + 1))
            = List.map (preBlockSeen t (((h b).transformedBlock).getD b))
                (List.range (k + 1)) :=
          List.map_congr_left (fun i _ => by
            simp [Function.comp, preBlockSeen_succ_cons])
        rw [ht]
        rfl
      constructor
      · rw [etr, Prod.mk.injEq]
        constructor
        · simp [preBlockSeen_succ_cons]
        · rw [hmap]
      · unfold runInvocation runPreHooks
        rw [etr]
        simpa using hblk'

/-! ## Scope matcher (`ScopeEnforcementHook.ts`, `matchesScope`)

The source compiles the pattern to a regex in which `**` becomes `.*`,
`*` becomes `[^/]*`, and the other regex metacharacters are escaped (so
they match literally); the compiled regex is anchored on both sides.  We
interpret the same token structure with the `Rx` engine.  (The one
metacharacter the source leaves unescaped, `?`, is treated as a literal
here; no scope pattern under consideration contains it.)
-/

/-- The glob-to-regex conversion of `matchesScope`: `**` ⇒ `.*`,
`*` ⇒ `[^/]*`, anything else literal. -/
def globToRx : List Char → Rx
  | [] => .eps
  | '*' :: '*' :: rest => .cat (.star (.cls jsDot)) (globToRx rest)
  | '*' :: rest => .cat (.star (.cls (· ≠ '/'))) (globToRx rest)
  | c :: rest => .cat (rxChar c) (globToRx rest)

/-- The pattern as a directory: a trailing `/` appended if absent. -/
def dirPatternOf (normalizedPattern : String) : String :=
  if endsWithSlash normalizedPattern then normalizedPattern
  else normalizedPattern ++ "/"

/-- `matchesScope(filePath, pattern)`: exact equality, else the compiled
glob regex, else the directory-prefix fallback. -/
def matchesScope (filePath pattern : String) : Bool :=
  let normalizedFile := replaceBackslashes filePath
  let normalizedPattern := replaceBackslashes pattern
  if normalizedFile = normalizedPattern then true
  else if (globToRx normalizedPattern.data).acceptList normalizedFile.data then true
  else startsWithL normalizedFile.data (dirPatternOf normalizedPattern).data

/-- C3: the scope matcher accepts exact string equality for every path
and pattern; `a/**` matches `a/b/c/d`; `a/*` matches `a/b` but not
`a/b/c`; and a pattern treated as a directory (`/` appended if absent)
matches every path it prefixes. -/
theorem matchesScope_spec :
    (∀ f p : String, f = p → matchesScope f p = true) ∧
    matchesScope "a/b/c/d" "a/**" = true ∧
    (matchesScope "a/b" "a/*" = true ∧ matchesScope "a/b/c" "a/*" = false) ∧
    (∀ f p : String,
      startsWithL (replaceBackslashes f).data
        (dirPatternOf (replaceBackslashes p)).data = true →
      matchesScope f p = true) := by
  refine ⟨?_, by decide, ⟨by decide, by decide⟩, ?_⟩
  · intro f p h
    subst h
    simp [matchesScope]
  · intro f p h
    simp only [matchesScope]
    split_ifs <;> simp [h]

/-- C3 witness: the two quantified clauses at concrete inputs. -/
theorem matchesScope_spec_witness :
    matchesScope "src/auth/login.ts" "src/auth/login.ts" = true ∧
    matchesScope "src/auth/login.ts" "src/auth" = true :=
  ⟨matchesScope_spec.1 _ _ rfl,
   matchesScope_spec.2.2.2 "src/auth/login.ts" "src/auth" (by decide)⟩

/-! ## Tool invocations and the filesystem

`ToolUse` models the parsed tool block: the string parameters the hooks
read (absent keys are `none`), plus the optional typed `nativeArgs`
view.  The filesystem is a function from absolute path to `FileState`;
`unreadable` is a file that exists but whose read throws (permissions).
-/

structure ToolParams where
  path : Option String := none
  file_path : Option String := none
  content : Option String := none
  diff : Option String := none
  new_string : Option String := none
  patch : Option String := none
  expected_hash : Option String := none
  mutation_class : Option String := none
  intent_id : Option String := none
deriving DecidableEq, Repr

structure NativeArgs where
  path : Option String := none
  content : Option String := none
  expected_hash : Option String := none
  mutation_class : Option String := none
  intent_id : Option String := none
deriving DecidableEq, Repr

structure ToolUse where
  name : String
  params : ToolParams := {}
  nativeArgs : Option NativeArgs := none
deriving DecidableEq, Repr

inductive FileState where
  | absent : FileState
  | unreadable : FileState
  | text (content : String) : FileState
deriving DecidableEq, Repr

/-- `fileExistsAtPath`. -/
def fileStateExists : FileState → Bool
  | .absent => false
  | _ => true

/-- POSIX `path.isAbsolute`. -/
def pathIsAbsolute (p : String) : Bool :=
  p.data.head? = some '/'

/-- `path.join(root, p)` for a relative `p` (no normalization needed by
the hooks' uses). -/
def pathJoin (root p : String) : String :=
  root ++ "/" ++ p

/-- `path.relative(root, p)` for the workspace-prefix case the hooks
hit (used only to build human-readable messages). -/
def pathRelative (root p : String) : String :=
  if startsWithL p.data (root ++ "/").data then
    String.mk (p.data.drop (root.data.length + 1))
  else p

/-! ## SpatialHasher (`SpatialHasher.ts`)

`sha256hex` stands for the hex digest of `crypto.createHash("sha256")`;
every consumer takes it as a parameter.
-/

/-- `hashContent`: the canonical `sha256:`-prefixed digest. -/
def hashContent (sha256hex : String → String) (content : String) : String :=
  "sha256:" ++ sha256hex content

/-! ## OptimisticLockHook (`OptimisticLockHook.ts`) -/

/-- The write tools subject to optimistic locking. -/
def writeTools : List String :=
  ["write_to_file", "apply_diff", "edit", "search_and_replace",
   "search_replace", "edit_file", "apply_patch"]

/-- `nativeArgs?.expected_hash ?? params.expected_hash ?? null`. -/
def resolvedExpectedHash (block : ToolUse) : Option String :=
  optChain (block.nativeArgs.bind NativeArgs.expected_hash) block.params.expected_hash

/-- `nativeArgs?.path ?? params.path ?? params.file_path ?? ""`. -/
def resolveTargetPath (block : ToolUse) : String :=
  (optChain (block.nativeArgs.bind NativeArgs.path)
    (optChain block.params.path block.params.file_path)).getD ""

/-- The absolute target path the lock hook checks. -/
def lockAbsPath (workspaceRoot : String) (block : ToolUse) : String :=
  let raw := resolveTargetPath block
  if pathIsAbsolute raw then raw else pathJoin workspaceRoot raw

def staleMissingMessage (rawFilePath : String) : String :=
  "File '" ++ rawFilePath ++ "' no longer exists. Re-read to verify before writing."

def staleMissingHint (rawFilePath : String) : String :=
  "The file you expected to exist at '" ++ rawFilePath ++
  "' no longer exists. It may have been deleted by another agent. Check with read_file or list_files and update your approach."

def staleModifiedMessage (relPath : String) : String :=
  "File '" ++ relPath ++ "' was modified since you last read it. Your version is stale."

def staleModifiedHint (relPath currentHash : String) : String :=
  "Re-read the file '" ++ relPath ++
  "' to get the latest content and its current hash, " ++
  "then retry your write using the new content as the base. " ++
  "The current hash is: " ++ currentHash

/-- The workspace-relative path used in the stale-file message. -/
def lockRelPath (workspaceRoot rawFilePath : String) : String :=
  if pathIsAbsolute rawFilePath then
    replaceBackslashes (pathRelative workspaceRoot rawFilePath)
  else rawFilePath

/-- `OptimisticLockHook.onPreExecute`. -/
def optimisticLockPre (sha256hex : String → String) (workspaceRoot : String)
    (fs : String → FileState) (block : ToolUse) : HookResult ToolUse :=
  if !(writeTools.contains block.name) then {}
  else
    let expectedHash := resolvedExpectedHash block
    if !(strTruthy expectedHash) then {}
    else
      let eh := expectedHash.getD ""
      let rawFilePath := resolveTargetPath block
      if rawFilePath = "" then {}
      else
        let absPath := if pathIsAbsolute rawFilePath then rawFilePath
          else pathJoin workspaceRoot rawFilePath
        match fs absPath with
        | .absent =>
          if eh ≠ "" then
            { blocked := true,
              errorMessage := some (buildRejectionError
                { code := "STALE_FILE",
                  message := staleMissingMessage rawFilePath,
                  toolName := block.name,
                  recoveryHint := some (staleMissingHint rawFilePath) }) }
          else {}
        | .unreadable => {}
        | .text currentContent =>
          let currentHash := hashContent sha256hex currentContent
          if currentHash ≠ eh then
            let relPath := lockRelPath workspaceRoot rawFilePath
            { blocked := true,
              errorMessage := some (buildRejectionError
                { code := "STALE_FILE",
                  message := staleModifiedMessage relPath,
                  toolName := block.name,
                  recoveryHint := some (staleModifiedHint relPath currentHash) }) }
          else {}

/-- C2: the optimistic-lock hook passes when the expected hash equals
the current file's content hash; blocks `STALE_FILE` when a non-empty
expected hash is supplied and the target file does not exist; blocks
`STALE_FILE` with the current hash inside the recovery hint when the
file exists and the hashes differ; passes when no expected hash is
supplied; and passes every non-write tool regardless of any hash. -/
theorem optimisticLock_spec :
    (∀ (sha : String → String) (root : String) (fs : String → FileState)
        (block : ToolUse) (eh c : String),
      writeTools.contains block.name = true →
      resolvedExpectedHash block = some eh → eh ≠ "" →
      resolveTargetPath block ≠ "" →
      fs (lockAbsPath root block) = .text c →
      hashContent sha c = eh →
      optimisticLockPre sha root fs block = {}) ∧
    (∀ (sha : String → String) (root : String) (fs : String → FileState)
        (block : ToolUse) (eh : String),
      writeTools.contains block.name = true →
      resolvedExpectedHash block = some eh → eh ≠ "" →
      resolveTargetPath block ≠ "" →
      fs (lockAbsPath root block) = .absent →
      optimisticLockPre sha root fs block =
        { blocked := true,
          errorMessage := some (buildRejectionError
            { code := "STALE_FILE",
              message := staleMissingMessage (resolveTargetPath block),
              toolName := block.name,
              recoveryHint := some (staleMissingHint (resolveTargetPath block)) }) }) ∧
    (∀ (sha : String → String) (root : String) (fs : String → FileState)
        (block : ToolUse) (eh c : String),
      writeTools.contains block.name = true →
      resolvedExpectedHash block = some eh → eh ≠ "" →
      resolveTargetPath block ≠ "" →
      fs (lockAbsPath root block) = .text c →
      hashContent sha c ≠ eh →
      optimisticLockPre sha root fs block =
        { blocked := true,
          errorMessage := some (buildRejectionError
            { code := "STALE_FILE",
              message := staleModifiedMessage (lockRelPath root (resolveTargetPath block)),
              toolName := block.name,
              recoveryHint := some (staleModifiedHint
                (lockRelPath root (resolveTargetPath block)) (hashContent sha c)) }) } ∧
      (∃ pre0, staleModifiedHint (lockRelPath root (resolveTargetPath block))
        (hashContent sha c) = pre0 ++ hashContent sha c)) ∧
    (∀ (sha : String → String) (root : String) (fs : String → FileState)
        (block : ToolUse),
      resolvedExpectedHash block = none →
      optimisticLockPre sha root fs block = {}) ∧
    (∀ (sha : String → String) (root : String) (fs : String → FileState)
        (block : ToolUse),
      writeTools.contains block.name = false →
      optimisticLockPre sha root fs block = {}) := by
  refine ⟨?_, ?_, ?_, ?_, ?_⟩
  · intro sha root fs block eh c h1 h2 h3 h4 h5 h6
    simp only [optimisticLockPre, h1, h2, Bool.not_true, Bool.false_eq_true, if_false,
      strTruthy]
    simp only [lockAbsPath] at h5
    simp [h3, h4, h5, h6]
  · intro sha root fs block eh h1 h2 h3 h4 h5
    simp only [optimisticLockPre, h1, h2, strTruthy]
    simp only [lockAbsPath] at h5
    simp [h3, h4, h5]
  · intro sha root fs block eh c h1 h2 h3 h4 h5 h6
    constructor
    · simp only [optimisticLockPre, h1, h2, strTruthy]
      simp only [lockAbsPath] at h5
      simp [h3, h4, h5, h6]
    · exact ⟨"Re-read the file '" ++ lockRelPath root (resolveTargetPath block) ++
        "' to get the latest content and its current hash, " ++
        "then retry your write using the new content as the base. " ++
        "The current hash is: ", by simp [staleModifiedHint, String.append_assoc]⟩
  · intro sha root fs block h1
    simp [optimisticLockPre, h1, strTruthy]
  · intro sha root fs block h1
    have h1m : ¬ (block.name ∈ writeTools) := by simpa using h1
    simp [optimisticLockPre, h1m]

/-- C2 witness: the five clauses at concrete inputs. -/
theorem optimisticLock_spec_witness :
    optimisticLockPre (fun _ => "x") "/w" (fun _ => FileState.text "c")
      { name := "write_to_file",
        params := { path := some "a.ts", expected_hash := some "sha256:x" } } = {} ∧
    optimisticLockPre (fun _ => "x") "/w" (fun _ => FileState.absent)
      { name := "apply_diff",
        params := { path := some "a.ts", expected_hash := some "sha256:old" } } =
      { blocked := true,
        errorMessage := some (buildRejectionError
          { code := "STALE_FILE",
            message := staleMissingMessage "a.ts",
            toolName := "apply_diff",
            recoveryHint := some (staleMissingHint "a.ts") }) } ∧
    (optimisticLockPre (fun _ => "x") "/w" (fun _ => FileState.text "c")
      { name := "edit",
        params := { path := some "a.ts", expected_hash := some "sha256:old" } } =
      { blocked := true,
        errorMessage := some (buildRejectionError
          { code := "STALE_FILE",
            message := staleModifiedMessage "a.ts",
            toolName := "edit",
            recoveryHint := some (staleModifiedHint "a.ts" "sha256:x") }) } ∧
      (∃ pre0, staleModifiedHint "a.ts" "sha256:x" = pre0 ++ "sha256:x")) ∧
    optimisticLockPre (fun _ => "x") "/w" (fun _ => FileState.text "c")
      { name := "write_to_file", params := { path := some "a.ts" } } = {} ∧
    optimisticLockPre (fun _ => "x") "/w" (fun _ => FileState.text "c")
      { name := "read_file",
        params := { path := some "a.ts", expected_hash := some "sha256:old" } } = {} :=
  ⟨optimisticLock_spec.1 (fun _ => "x") "/w" (fun _ => FileState.text "c") _ "sha256:x" "c"
      (by decide) (by decide) (by decide) (by decide) rfl (by decide),
   optimisticLock_spec.2.1 (fun _ => "x") "/w" (fun _ => FileState.absent) _ "sha256:old"
      (by decide) (by decide) (by decide) (by decide) rfl,
   optimisticLock_spec.2.2.1 (fun _ => "x") "/w" (fun _ => FileState.text "c") _ "sha256:old" "c"
      (by decide) (by decide) (by decide) (by decide) rfl (by decide),
   optimisticLock_spec.2.2.2.1 (fun _ => "x") "/w" (fun _ => FileState.text "c") _
      (by decide),
   optimisticLock_spec.2.2.2.2 (fun _ => "x") "/w" (fun _ => FileState.text "c") _
      (by decide)⟩

/-- C9: a write-tool invocation whose `expected_hash` is the empty
string passes the optimistic-lock hook unconditionally — the empty
string is treated like an absent hash for every filesystem state. -/
theorem optimisticLock_emptyHash_pass
    (sha : String → String) (root : String) (fs : String → FileState)
    (block : ToolUse)
    (_hw : writeTools.contains block.name = true)
    (he : resolvedExpectedHash block = some "") :
    optimisticLockPre sha root fs block = {} := by
  simp [optimisticLockPre, he, strTruthy]

/-- C9 witness: empty expected hash passes even though the target file
exists and hashes differently. -/
theorem optimisticLock_emptyHash_pass_witness :
    optimisticLockPre (fun _ => "x") "/w" (fun _ => FileState.text "other content")
      { name := "write_to_file",
        params := { path := some "a.ts", expected_hash := some "" } } = {} :=
  optimisticLock_emptyHash_pass _ _ _ _ (by decide) (by decide)

/-! ## IntentGatekeeperHook (`IntentGatekeeperHook.ts`) -/

/-- The tools that require an active intent. -/
def sideEffectTools : List String :=
  ["write_to_file", "apply_diff", "execute_command", "insert_content",
   "search_and_replace", "browser_action", "use_mcp_tool", "switch_mode",
   "new_task"]

def governanceErrorMessage : String :=
  "GOVERNANCE ERROR: You must call select_active_intent with a valid Intent ID before using any other tools. Please call select_active_intent first."

/-- `IntentGatekeeperHook.onPreExecute`: block side-effect tools when no
active intent is set. -/
def intentGatekeeperPre (activeIntentId : Option String) (block : ToolUse) :
    HookResult ToolUse :=
  if sideEffectTools.contains block.name then
    if !(strTruthy activeIntentId) then
      { blocked := true, errorMessage := some governanceErrorMessage }
    else {}
  else {}

/-! ## AuthorizationHook (unnamed source part; `AuthorizationHook.onPreExecute`)

The modal dialog is an external input: `modalChoice` is the button the
host returned (`none` models dismissal).  The `.intentignore` file is a
`FileState`; a failed read degrades to the empty bypass set. -/

/-- One intent id per non-blank, non-`#` line, trimmed. -/
def parseIntentIgnore (raw : String) : List String :=
  ((splitNl raw.data).map (fun l => jsTrim (String.mk l))).filter
    (fun t => decide (0 < t.length) && !(startsWithL t.data ['#']))

/-- `loadIntentIgnore`: missing file or read failure degrade to no
bypass. -/
def loadIntentIgnore : FileState → List String
  | .absent => []
  | .unreadable => []
  | .text raw => parseIntentIgnore raw

/-- Tool name with underscores replaced by spaces. -/
def toolLabelOf (name : String) : String :=
  String.mk (name.data.map (fun c => if c = '_' then ' ' else c))

/-- `params?.path || params?.file_path`. -/
def authTarget (block : ToolUse) : Option String :=
  jsOrStr block.params.path block.params.file_path

/-- The ` on "<path>"` fragment of the dialog and rejection messages. -/
def authFileHint (block : ToolUse) : String :=
  if strTruthy (authTarget block) then
    " on \"" ++ (authTarget block).getD "" ++ "\""
  else ""

def authApprovalMessage (activeId : String) (block : ToolUse) : String :=
  "[Intent: " ++ activeId ++ "] Approve \"" ++ toolLabelOf block.name ++ "\"" ++
    authFileHint block ++ "?"

def authRejectedMessage (block : ToolUse) : String :=
  "The developer rejected the tool call \"" ++ block.name ++ "\"" ++
    authFileHint block ++ ". Reconsider your approach."

def authRejectedHint : String :=
  "Pause and ask the user what they would like you to do differently, or try an alternative approach that achieves the same goal."

structure AuthOutcome where
  result : HookResult ToolUse
  modalShown : Bool
deriving DecidableEq, Repr

/-- `AuthorizationHook.onPreExecute`.  Non-DESTRUCTIVE tools pass; a
bypassed intent passes without the modal; otherwise the modal's answer
decides, and anything but an explicit `Approve` blocks. -/
def authorizationPre (activeIntentId : Option String) (ignoreFile : FileState)
    (modalChoice : Option String) (block : ToolUse) : AuthOutcome :=
  if classifyCommand block.name ≠ .DESTRUCTIVE then ⟨{}, false⟩
  else
    let activeId := activeIntentId.getD "(no intent)"
    if (loadIntentIgnore ignoreFile).contains activeId then ⟨{}, false⟩
    else if modalChoice ≠ some "Approve" then
      ⟨{ blocked := true,
         errorMessage := some (buildRejectionError
           { code := "USER_REJECTED_INTENT_EVOLUTION",
             message := authRejectedMessage block,
             toolName := block.name,
             intentId := activeIntentId,
             recoveryHint := some authRejectedHint }) }, true⟩
    else ⟨{}, true⟩

/-- C6: for every DESTRUCTIVE tool invocation, a bypassed active intent
passes without a modal; otherwise the modal is shown and any answer
other than an explicit `Approve` blocks with rejection code
`USER_REJECTED_INTENT_EVOLUTION`; every non-DESTRUCTIVE tool passes
without a modal. -/
theorem authorizationHook_spec :
    (∀ (aid : Option String) (ign : FileState) (choice : Option String)
        (block : ToolUse),
      classifyCommand block.name = .DESTRUCTIVE →
      (loadIntentIgnore ign).contains (aid.getD "(no intent)") = true →
      authorizationPre aid ign choice block = ⟨{}, false⟩) ∧
    (∀ (aid : Option String) (ign : FileState) (choice : Option String)
        (block : ToolUse),
      classifyCommand block.name = .DESTRUCTIVE →
      (loadIntentIgnore ign).contains (aid.getD "(no intent)") = false →
      (authorizationPre aid ign choice block).modalShown = true ∧
      (choice ≠ some "Approve" →
        authorizationPre aid ign choice block =
          ⟨{ blocked := true,
             errorMessage := some (buildRejectionError
               { code := "USER_REJECTED_INTENT_EVOLUTION",
                 message := authRejectedMessage block,
                 toolName := block.name,
                 intentId := aid,
                 recoveryHint := some authRejectedHint }) }, true⟩)) ∧
    (∀ (aid : Option String) (ign : FileState) (choice : Option String)
        (block : ToolUse),
      classifyCommand block.name ≠ .DESTRUCTIVE →
      authorizationPre aid ign choice block = ⟨{}, false⟩) := by
  refine ⟨?_, ?_, ?_⟩
  · intro aid ign choice block h1 h2
    have h2m : aid.getD "(no intent)" ∈ loadIntentIgnore ign := by simpa using h2
    simp [authorizationPre, h1, h2m]
  · intro aid ign choice block h1 h2
    have h2m : ¬ (aid.getD "(no intent)" ∈ loadIntentIgnore ign) := by simpa using h2
    constructor
    · by_cases hc : choice = some "Approve" <;>
        simp [authorizationPre, h1, h2m, hc]
    · intro hc
      simp [authorizationPre, h1, h2m, hc]
  · intro aid ign choice block h1
    simp [authorizationPre, h1]

/-- C6 witness: the three clauses at concrete inputs. -/
theorem authorizationHook_spec_witness :
    authorizationPre (some "INT-001") (.text "# bypass list\nINT-001\nINT-002\n")
      none { name := "write_to_file" } = ⟨{}, false⟩ ∧
    ((authorizationPre (some "INT-001") (.text "INT-999\n") (some "Reject")
        { name := "write_to_file", params := { path := some "src/test.ts" } }).modalShown
      = true ∧
     (some "Reject" ≠ some "Approve" →
      authorizationPre (some "INT-001") (.text "INT-999\n") (some "Reject")
        { name := "write_to_file", params := { path := some "src/test.ts" } } =
        ⟨{ blocked := true,
           errorMessage := some (buildRejectionError
             { code := "USER_REJECTED_INTENT_EVOLUTION",
               message := authRejectedMessage
                 { name := "write_to_file", params := { path := some "src/test.ts" } },
               toolName := "write_to_file",
               intentId := some "INT-001",
               recoveryHint := some authRejectedHint }) }, true⟩)) ∧
    authorizationPre (some "INT-001") .absent (some "Approve")
      { name := "read_file" } = ⟨{}, false⟩ :=
  ⟨authorizationHook_spec.1 (some "INT-001") _ none _ (by decide) (by decide),
   authorizationHook_spec.2.1 (some "INT-001") _ (some "Reject") _ (by decide) (by decide),
   authorizationHook_spec.2.2 (some "INT-001") _ (some "Approve") _ (by decide)⟩

/-- Destructive tools that are not in the gatekeeper's side-effect
list. -/
def gatekeeperExemptDestructiveTools : List String :=
  ["edit", "edit_file", "apply_patch", "generate_image", "run_slash_command",
   "skill", "access_mcp_resource"]

/-- C10: with no active intent the authorization hook looks up the
literal `"(no intent)"`, so an `.intentignore` line of exactly that
suppresses the modal for intent-less destructive calls; and the listed
destructive tools are missed by the gatekeeper's side-effect list, so
the gatekeeper passes them even without an intent. -/
theorem noIntent_bypass_spec :
    (∀ t ∈ gatekeeperExemptDestructiveTools,
      classifyCommand t = .DESTRUCTIVE ∧ sideEffectTools.contains t = false) ∧
    (∀ (aid : Option String) (block : ToolUse),
      sideEffectTools.contains block.name = false →
      intentGatekeeperPre aid block = {}) ∧
    (∀ (raw : String) (choice : Option String) (block : ToolUse),
      (parseIntentIgnore raw).contains "(no intent)" = true →
      classifyCommand block.name = .DESTRUCTIVE →
      authorizationPre none (.text raw) choice block = ⟨{}, false⟩) := by
  refine ⟨by decide, ?_, ?_⟩
  · intro aid block h1
    have h1m : ¬ (block.name ∈ sideEffectTools) := by simpa using h1
    simp [intentGatekeeperPre, h1m]
  · intro raw choice block h1 h2
    have h1m : "(no intent)" ∈ parseIntentIgnore raw := by simpa using h1
    simp [authorizationPre, h2, loadIntentIgnore, h1m]

/-- C10 witness: an `.intentignore` holding the line `(no intent)` lets
an intent-less `edit` through both the gatekeeper and the authorization
hook without a modal. -/
theorem noIntent_bypass_spec_witness :
    (classifyCommand "edit" = .DESTRUCTIVE ∧
      sideEffectTools.contains "edit" = false) ∧
    intentGatekeeperPre none { name := "edit" } = {} ∧
    authorizationPre none (.text "(no intent)\n") none { name := "edit" } =
      ⟨{}, false⟩ :=
  ⟨noIntent_bypass_spec.1 "edit" (by decide),
   noIntent_bypass_spec.2.1 none { name := "edit" } (by decide),
   noIntent_bypass_spec.2.2 "(no intent)\n" none { name := "edit" }
     (by decide) (by decide)⟩

/-- C4 witness hooks: a transforming hook, then a blocking hook, then a
hook that is never reached. -/
def hooksW : List (Nat → HookResult Nat) :=
  [fun n => { transformedBlock := some (n + 1) },
   fun _ => { blocked := true, errorMessage := some "stop" },
   fun _ => {}]

/-- C4 witness: with the second hook blocking, the engine returns its
result, invokes exactly hooks 0 and 1 (hook 1 seeing the transformed
block), and the tool does not run. -/
theorem runPreHooks_block_short_circuits_witness :
    runPreHooksTr hooksW 0 =
      ((hooksW.get ⟨1, by decide⟩) (preBlockSeen hooksW 0 1),
        (List.range 2).map (preBlockSeen hooksW 0)) ∧
    runInvocation hooksW (fun n => n) 0 = none :=
  runPreHooks_block_short_circuits hooksW (fun n => n) 0 1 (by decide)
    (fun i hi => by
      match i, hi with
      | 0, _ => rfl)
    (by rfl)

/-! ## IntentUpdateHook (`IntentUpdateHook.ts`)

The registry file is modelled parsed: an ordered list of intent
records.  `rest` holds the record's other YAML keys (name, owned_scope,
…) opaquely — the hook never touches them.  The hook's outcome is
`none` (no registry write) or `some r'` (the registry rewritten as
`r'`). -/

structure IntentRecord where
  id : String
  status : String
  rest : List (String × String) := []
deriving DecidableEq, Repr

structure IntentRegistry where
  active_intents : List IntentRecord
deriving DecidableEq, Repr

inductive RegistryFile where
  | missing : RegistryFile
  | unparsable : RegistryFile
  | parsed (r : IntentRegistry) : RegistryFile
deriving DecidableEq, Repr

/-- The status the hook computes for the named tool. -/
def intentUpdateNewStatus (toolName currentStatus : String) : String :=
  if toolName = "select_active_intent" then "IN_PROGRESS"
  else if toolName = "attempt_completion" then "COMPLETED"
  else currentStatus

/-- `findIndex` on the intent id, then in-place status update only when
the stored status differs (`none` = no write). -/
def updateFirstIntent : List IntentRecord → String → String → Option (List IntentRecord)
  | [], _, _ => none
  | it :: rest, aid, toolName =>
    if it.id = aid then
      if it.status = intentUpdateNewStatus toolName it.status then none
      else some ({ it with status := intentUpdateNewStatus toolName it.status } :: rest)
    else (updateFirstIntent rest aid toolName).map (it :: ·)

/-- `IntentUpdateHook.onPostExecute`. -/
def intentUpdatePost (activeIntentId : Option String) (toolName : String)
    (file : RegistryFile) : Option IntentRegistry :=
  if ¬(toolName = "select_active_intent" ∨ toolName = "attempt_completion") then none
  else if !(strTruthy activeIntentId) then none
  else
    match file with
    | .missing => none
    | .unparsable => none
    | .parsed r =>
      (updateFirstIntent r.active_intents (activeIntentId.getD "") toolName).map
        (fun l => { active_intents := l })

theorem updateFirstIntent_none (l : List IntentRecord) (aid tool : String)
    (it : IntentRecord)
    (hf : l.find? (fun i => i.id == aid) = some it)
    (hs : intentUpdateNewStatus tool it.status = it.status) :
    updateFirstIntent l aid tool = none := by
  induction l with
  | nil => simp at hf
  | cons a l ih =>
    by_cases ha : a.id = aid
    · rw [List.find?_cons_of_pos (p := fun i : IntentRecord => i.id == aid) l
        (by simp [ha])] at hf
      have : it = a := by simpa using hf.symm
      subst this
      simp [updateFirstIntent, if_pos ha, hs]
    · rw [List.find?_cons_of_neg (p := fun i : IntentRecord => i.id == aid) l
        (by simp [ha])] at hf
      simp only [updateFirstIntent, if_neg ha, ih hf, Option.map_none']

theorem updateFirstIntent_frame (l : List IntentRecord) (aid tool : String)
    (l' : List IntentRecord)
    (h : updateFirstIntent l aid tool = some l') :
    ∃ pre it post, l = pre ++ it :: post ∧
      l' = pre ++ { it with status := intentUpdateNewStatus tool it.status } :: post := by
  induction l generalizing l' with
  | nil => simp [updateFirstIntent] at h
  | cons a l ih =>
    by_cases ha : a.id = aid
    · by_cases hs : a.status = intentUpdateNewStatus tool a.status
      · simp only [updateFirstIntent, if_pos ha, if_pos hs] at h
        simp at h
      · simp only [updateFirstIntent, if_pos ha, if_neg hs, Option.some.injEq] at h
        exact ⟨[], a, l, by simp, by simp [h.symm]⟩
    · simp only [updateFirstIntent, if_neg ha] at h
      obtain ⟨l'', hl'', heq⟩ := Option.map_eq_some'.mp h
      obtain ⟨pre, it, post, h1, h2⟩ := ih l'' hl''
      exact ⟨a :: pre, it, post, by simp [h1], by simp [h2, heq.symm]⟩

/-- C7: the intent-update hook rewrites the registry only when the
computed status differs from the stored one — re-selecting an intent
already IN_PROGRESS, or re-completing one already COMPLETED, performs no
write; and whenever a write happens, the new registry differs from the
old only in the status field of the one matched intent. -/
theorem intentUpdate_spec :
    (∀ (r : IntentRegistry) (it : IntentRecord) (aid : String),
      r.active_intents.find? (fun i => i.id == aid) = some it →
      it.status = "IN_PROGRESS" →
      intentUpdatePost (some aid) "select_active_intent" (.parsed r) = none) ∧
    (∀ (r : IntentRegistry) (it : IntentRecord) (aid : String),
      r.active_intents.find? (fun i => i.id == aid) = some it →
      it.status = "COMPLETED" →
      intentUpdatePost (some aid) "attempt_completion" (.parsed r) = none) ∧
    (∀ (aid : Option String) (tool : String) (r r' : IntentRegistry),
      intentUpdatePost aid tool (.parsed r) = some r' →
      ∃ pre it post,
        r.active_intents = pre ++ it :: post ∧
        r'.active_intents =
          pre ++ { it with status := intentUpdateNewStatus tool it.status } :: post) := by
  refine ⟨?_, ?_, ?_⟩
  · intro r it aid hf hs
    have hnone := updateFirstIntent_none r.active_intents aid "select_active_intent" it hf
      (by simp [intentUpdateNewStatus, hs])
    by_cases haid : aid = "" <;>
      simp [intentUpdatePost, strTruthy, haid, hnone]
  · intro r it aid hf hs
    have hnone := updateFirstIntent_none r.active_intents aid "attempt_completion" it hf
      (by simp [intentUpdateNewStatus, hs])
    by_cases haid : aid = "" <;>
      simp [intentUpdatePost, strTruthy, haid, hnone]
  · intro aid tool r r' h
    simp only [intentUpdatePost] at h
    split at h
    · exact absurd h (by simp)
    · split at h
      · exact absurd h (by simp)
      · obtain ⟨l', hl', heq⟩ := Option.map_eq_some'.mp h
        obtain ⟨pre, it, post, h1, h2⟩ :=
          updateFirstIntent_frame r.active_intents (aid.getD "") tool l' hl'
        refine ⟨pre, it, post, h1, ?_⟩
        rw [← heq]
        exact h2

/-- C7 witness: re-selecting an IN_PROGRESS intent writes nothing;
completing it rewrites only its status field. -/
theorem intentUpdate_spec_witness :
    intentUpdatePost (some "INT-001") "select_active_intent"
      (.parsed ⟨[⟨"INT-001", "IN_PROGRESS", [("name", "Auth")]⟩]⟩) = none ∧
    (∃ pre it post,
      (⟨[⟨"INT-001", "IN_PROGRESS", [("name", "Auth")]⟩]⟩ :
        IntentRegistry).active_intents = pre ++ it :: post ∧
      (⟨[⟨"INT-001", "COMPLETED", [("name", "Auth")]⟩]⟩ :
        IntentRegistry).active_intents =
        pre ++ { it with
          status := intentUpdateNewStatus "attempt_completion" it.status } :: post) :=
  ⟨intentUpdate_spec.1 ⟨[⟨"INT-001", "IN_PROGRESS", [("name", "Auth")]⟩]⟩
      ⟨"INT-001", "IN_PROGRESS", [("name", "Auth")]⟩ "INT-001" (by decide) rfl,
   intentUpdate_spec.2.2 (some "INT-001") "attempt_completion"
      ⟨[⟨"INT-001", "IN_PROGRESS", [("name", "Auth")]⟩]⟩
      ⟨[⟨"INT-001", "COMPLETED", [("name", "Auth")]⟩]⟩ (by decide)⟩

/-! ## TracePostHook (unnamed source part; enhanced `TracePostHook`)

`tracePostEntry` is `onPostExecute` with its effects made explicit: it
returns the `TraceEntry` the hook appends, or `none` when the hook
returns without appending.  `fs` is the filesystem snapshot the hook's
existence check and fallback read observe; since the hook runs in the
post-phase, in the pipeline that snapshot is the state *after* the tool
ran.  `uuid`/`timestamp` stand for `crypto.randomUUID()` and
`new Date().toISOString()`. -/

/-- The trace hook's own mutating-tool list. -/
def mutatingTools : List String :=
  ["write_to_file", "apply_diff", "edit", "search_and_replace",
   "search_replace", "edit_file", "apply_patch"]

/-- `nativeArgs?.mutation_class ?? params.mutation_class`. -/
def resolvedMutationClassParam (block : ToolUse) : Option String :=
  optChain (block.nativeArgs.bind NativeArgs.mutation_class) block.params.mutation_class

/-- `nativeArgs?.intent_id ?? params.intent_id ?? null`. -/
def resolvedIntentIdParam (block : ToolUse) : Option String :=
  optChain (block.nativeArgs.bind NativeArgs.intent_id) block.params.intent_id

/-- `nativeArgs?.content ?? params.content ?? ""`. -/
def resolvedWriteContent (block : ToolUse) : String :=
  (optChain (block.nativeArgs.bind NativeArgs.content) block.params.content).getD ""

/-- `content.split("\n").length`. -/
def countLines (c : String) : Nat :=
  (splitNl c.data).length

structure TaskInfo where
  activeIntentId : Option String := none
  taskId : String := ""
  modelId : String := ""
deriving DecidableEq, Repr

/-- The absolute target path the trace hook checks/reads. -/
def traceAbsPath (root : String) (block : ToolUse) : String :=
  let fp := resolveTargetPath block
  if pathIsAbsolute fp then fp else pathJoin root fp

structure TraceRange where
  start_line : Nat
  end_line : Nat
  content_hash : String
  mutation_class : MutationClass
deriving DecidableEq, Repr

structure TraceRelated where
  type : String
  value : String
deriving DecidableEq, Repr

structure TraceConversation where
  url : String
  contributor_entity : String
  contributor_model : String
  ranges : List TraceRange
  related : List TraceRelated
deriving DecidableEq, Repr

structure TraceFile where
  relative_path : String
  conversations : List TraceConversation
deriving DecidableEq, Repr

structure TraceEntry where
  id : String
  timestamp : String
  vcs_revision : String
  files : List TraceFile
deriving DecidableEq, Repr

structure TraceContent where
  contentToHash : String
  endLine : Nat
  isNewFile : Bool
deriving DecidableEq, Repr

/-- The content-extraction branch chain of `onPostExecute`: full-file
content (with the before-write existence check) for `write_to_file`,
else `diff`/`new_string`/`patch`, else the whole current file when
readable. -/
def extractTraceContent (root : String) (fs : String → FileState)
    (block : ToolUse) : TraceContent :=
  if block.name = "write_to_file" then
    let c := resolvedWriteContent block
    { contentToHash := c, endLine := countLines c,
      isNewFile := !(fileStateExists (fs (traceAbsPath root block))) }
  else if strTruthy block.params.diff then
    let c := block.params.diff.getD ""
    { contentToHash := c, endLine := countLines c, isNewFile := false }
  else if strTruthy block.params.new_string then
    let c := block.params.new_string.getD ""
    { contentToHash := c, endLine := countLines c, isNewFile := false }
  else if strTruthy block.params.patch then
    let c := block.params.patch.getD ""
    { contentToHash := c, endLine := countLines c, isNewFile := false }
  else
    match fs (traceAbsPath root block) with
    | .text c => { contentToHash := c, endLine := countLines c, isNewFile := false }
    | _ => { contentToHash := "", endLine := 1, isNewFile := false }

/-- `related`: always the specification entry for the active intent; a
requirement entry as well when a distinct truthy explicit `intent_id`
was supplied. -/
def traceRelatedEntries (aid : String) (block : ToolUse) : List TraceRelated :=
  [⟨"specification", aid⟩] ++
    (if strTruthy (resolvedIntentIdParam block) &&
        !(resolvedIntentIdParam block == some aid) then
      [⟨"requirement", (resolvedIntentIdParam block).getD ""⟩]
    else [])

/-- `TracePostHook.onPostExecute` (the entry it appends, if any). -/
def tracePostEntry (sha256hex : String → String) (root : String)
    (fs : String → FileState) (uuid timestamp : String) (task : TaskInfo)
    (block : ToolUse) : Option TraceEntry :=
  if !(mutatingTools.contains block.name) then none
  else if !(strTruthy task.activeIntentId) then none
  else
    let aid := task.activeIntentId.getD ""
    let fp := resolveTargetPath block
    if fp = "" then none
    else
      let relativePath := if pathIsAbsolute fp then
          replaceBackslashes (pathRelative root fp)
        else replaceBackslashes fp
      let tc := extractTraceContent root fs block
      if tc.contentToHash = "" then none
      else
        let mc := classifyMutation
          { explicitClass := resolvedMutationClassParam block,
            content := tc.contentToHash, isNewFile := tc.isNewFile }
        some { id := uuid, timestamp := timestamp, vcs_revision := "unavailable",
               files := [{ relative_path := relativePath,
                           conversations := [{ url := task.taskId,
                                               contributor_entity := "AI",
                                               contributor_model := task.modelId,
                                               ranges := [{ start_line := 1,
                                                            end_line := tc.endLine,
                                                            content_hash := hashContent sha256hex tc.contentToHash,
                                                            mutation_class := mc }],
                                               related := traceRelatedEntries aid block }] }] }

/-- The mutation classes recorded in an entry's ranges. -/
def traceEntryClasses (e : TraceEntry) : List MutationClass :=
  (e.files.map (fun f =>
    (f.conversations.map (fun c => c.ranges.map TraceRange.mutation_class)).flatten)).flatten

/-- C1 (code bug): the enhanced trace hook computes `is_new_file` with
an existence check that runs in the post-phase, after the tool has
written the file, although its own comment says "check if the file
existed before this write".  At this new-file `write_to_file` (content
`"+import a\n\n"`, no explicit class, active intent set): against the
snapshot the post-phase actually observes — the file just written, so
present — `isNewFile` is `false`, the new-file rule does not fire, and
the refactor heuristics record `AST_REFACTOR`; against the pre-write
snapshot (file absent), the intended state, the new-file rule would
record `INTENT_EVOLUTION` as the claim says. -/
theorem tracePost_newFile_postPhase_bug :
    (extractTraceContent "/w" (fun _ => FileState.text "+import a\n\n")
      { name := "write_to_file",
        params := { path := some "src/a.ts",
                    content := some "+import a\n\n" } }).isNewFile = false ∧
    (tracePostEntry (fun _ => "d") "/w" (fun _ => FileState.text "+import a\n\n") "u" "t"
      { activeIntentId := some "INT-001", taskId := "T", modelId := "m" }
      { name := "write_to_file",
        params := { path := some "src/a.ts",
                    content := some "+import a\n\n" } }).map traceEntryClasses =
      some [MutationClass.AST_REFACTOR] ∧
    (tracePostEntry (fun _ => "d") "/w" (fun _ => FileState.absent) "u" "t"
      { activeIntentId := some "INT-001", taskId := "T", modelId := "m" }
      { name := "write_to_file",
        params := { path := some "src/a.ts",
                    content := some "+import a\n\n" } }).map traceEntryClasses =
      some [MutationClass.INTENT_EVOLUTION] :=
  ⟨by decide, by decide, by decide⟩

/-- C5: `classifyMutation` follows the stated priority order: an
explicit class in the two-value set wins; then a new file forces
`INTENT_EVOLUTION`; then any evolution signal dominates; then two or
more distinct refactor signals give `AST_REFACTOR`; otherwise the
default is `INTENT_EVOLUTION`. -/
theorem classifyMutation_spec :
    (∀ inp : MutationClassificationInput,
      inp.explicitClass = some "AST_REFACTOR" →
      classifyMutation inp = .AST_REFACTOR) ∧
    (∀ inp : MutationClassificationInput,
      inp.explicitClass = some "INTENT_EVOLUTION" →
      classifyMutation inp = .INTENT_EVOLUTION) ∧
    (∀ inp : MutationClassificationInput,
      inp.explicitClass ≠ some "AST_REFACTOR" →
      inp.explicitClass ≠ some "INTENT_EVOLUTION" →
      inp.isNewFile = true →
      classifyMutation inp = .INTENT_EVOLUTION) ∧
    (∀ inp : MutationClassificationInput,
      inp.explicitClass ≠ some "AST_REFACTOR" →
      inp.explicitClass ≠ some "INTENT_EVOLUTION" →
      inp.isNewFile = false →
      EVOLUTION_PATTERNS.any (fun p => p inp.content) = true →
      classifyMutation inp = .INTENT_EVOLUTION) ∧
    (∀ inp : MutationClassificationInput,
      inp.explicitClass ≠ some "AST_REFACTOR" →
      inp.explicitClass ≠ some "INTENT_EVOLUTION" →
      inp.isNewFile = false →
      EVOLUTION_PATTERNS.any (fun p => p inp.content) = false →
      2 ≤ (REFACTOR_PATTERNS.filter (fun p => p inp.content)).length →
      classifyMutation inp = .AST_REFACTOR) ∧
    (∀ inp : MutationClassificationInput,
      inp.explicitClass ≠ some "AST_REFACTOR" →
      inp.explicitClass ≠ some "INTENT_EVOLUTION" →
      inp.isNewFile = false →
      EVOLUTION_PATTERNS.any (fun p => p inp.content) = false →
      (REFACTOR_PATTERNS.filter (fun p => p inp.content)).length < 2 →
      classifyMutation inp = .INTENT_EVOLUTION) := by
  refine ⟨?_, ?_, ?_, ?_, ?_, ?_⟩
  · intro inp h1
    simp [classifyMutation, h1]
  · intro inp h1
    have h0 : inp.explicitClass ≠ some "AST_REFACTOR" := by simp [h1]
    simp [classifyMutation, h0, h1]
  · intro inp h1 h2 h3
    simp [classifyMutation, h1, h2, h3]
  · intro inp h1 h2 h3 h4
    simp [classifyMutation, h1, h2, h3, h4]
  · intro inp h1 h2 h3 h4 h5
    simp [classifyMutation, h1, h2, h3, h4, h5]
  · intro inp h1 h2 h3 h4 h5
    simp [classifyMutation, h1, h2, h3, h4, Nat.not_le.mpr h5]

/-- C5 witness: one concrete input per priority rule. -/
theorem classifyMutation_spec_witness :
    classifyMutation { explicitClass := some "AST_REFACTOR",
                       content := "+export function f() \x7b" } = .AST_REFACTOR ∧
    classifyMutation { explicitClass := some "INTENT_EVOLUTION",
                       content := "// c" } = .INTENT_EVOLUTION ∧
    classifyMutation { content := "// c", isNewFile := true } = .INTENT_EVOLUTION ∧
    classifyMutation { content := "+export class A b" } = .INTENT_EVOLUTION ∧
    classifyMutation { content := "-import a\n+import b\n\n" } = .AST_REFACTOR ∧
    classifyMutation { content := "const x = 1 + 2" } = .INTENT_EVOLUTION :=
  ⟨classifyMutation_spec.1 _ rfl,
   classifyMutation_spec.2.1 _ rfl,
   classifyMutation_spec.2.2.1 _ (by decide) (by decide) rfl,
   classifyMutation_spec.2.2.2.1 _ (by decide) (by decide) rfl (by decide),
   classifyMutation_spec.2.2.2.2.1 _ (by decide) (by decide) rfl (by decide) (by decide),
   classifyMutation_spec.2.2.2.2.2 _ (by decide) (by decide) rfl (by decide) (by decide)⟩

end IGK
